import Mathlib

/-!
# go-osm: `Location2CountryCode`

A shallow embedding of `osm.go` (package `osm`): the client operation
`Client.Location2CountryCode` with its helper `Client.httpGet`, the response types
`OSMAddress`, `OSMItem`, `OSMResponse` and the two sentinel errors.

Go values are represented as follows.

* A Go `string` and a `[]byte` are both a list of bytes, `Bytes = List Nat`; every byte the
  model produces is below 256.
* A Go `error` is `Option GoError`, `none` being `nil`.
* A pointer that may be `nil` (`*http.Request`, `*http.Response`) is an `Option`.
* A call that may panic returns an `Outcome`; the calls made on the HTTP client are
  recorded in the `calls` field of a `Run`.

The functions of the Go standard library that `osm.go` calls (`fmt.Sprintf`,
`http.NewRequest`, `(*http.Client).Do`, `ioutil.ReadAll`, `json.Unmarshal`) are modelled
after the library's documented behaviour, each in a section of its own.
-/

namespace Osm

/-! ## Byte strings -/

/-- A Go `string` or `[]byte`: a sequence of bytes. -/
abbrev Bytes := List Nat

/-- The Go function `utf8.EncodeRune`: the UTF-8 encoding of a code point; surrogates and
values above U+10FFFF are encoded as U+FFFD. -/
def encodeRune (r : Nat) : Bytes :=
  if r < 0x80 then [r]
  else if r < 0x800 then [0xC0 + r / 64, 0x80 + r % 64]
  else if 0x10FFFF < r ∨ (0xD800 ≤ r ∧ r < 0xE000) then [0xEF, 0xBF, 0xBD]
  else if r < 0x10000 then [0xE0 + r / 4096, 0x80 + r / 64 % 64, 0x80 + r % 64]
  else [0xF0 + r / 262144, 0x80 + r / 4096 % 64, 0x80 + r / 64 % 64, 0x80 + r % 64]

/-- The bytes of a Go string literal (Go source text is UTF-8). -/
def str (s : String) : Bytes :=
  s.data.flatMap (fun c => encodeRune c.toNat)

/-- The Go function `strings.Cut` with a one-byte separator: the text before the first
occurrence of `sep`, the text after it, and whether `sep` occurs. -/
def cut (sep : Nat) : Bytes → Bytes × Bytes × Bool
  | [] => ([], [], false)
  | c :: cs =>
    if c = sep then ([], cs, true)
    else
      let r := cut sep cs
      (c :: r.1, r.2.1, r.2.2)

/-- The Go function `strings.HasPrefix`. -/
def hasPrefix : Bytes → Bytes → Bool
  | _, [] => true
  | [], _ :: _ => false
  | c :: cs, p :: ps => decide (c = p) && hasPrefix cs ps

/-- The hexadecimal digit test `ishex` of `net/url`. -/
def ishex (c : Nat) : Bool :=
  (0x30 ≤ c ∧ c ≤ 0x39) ∨ (0x61 ≤ c ∧ c ≤ 0x66) ∨ (0x41 ≤ c ∧ c ≤ 0x46)

/-- The digit value `unhex` of `net/url`. -/
def unhex (c : Nat) : Nat :=
  if 0x30 ≤ c ∧ c ≤ 0x39 then c - 0x30
  else if 0x61 ≤ c ∧ c ≤ 0x66 then c - 0x61 + 10
  else if 0x41 ≤ c ∧ c ≤ 0x46 then c - 0x41 + 10
  else 0

/-! ## Errors and outcomes -/

/-- A non-nil Go `error` value. The two sentinels are the package variables of `osm.go`;
the others are the errors of the standard library that can reach the caller. -/
inductive GoError where
  /-- The sentinel `ErrWrongStatusCode`. -/
  | ErrWrongStatusCode
  /-- The sentinel `ErrNoMatch`. -/
  | ErrNoMatch
  /-- A `*url.Error` of `net/url`, with its operation and cause. -/
  | urlError (op : String) (cause : String)
  /-- A `*json.SyntaxError`, with its `Offset`. -/
  | syntaxError (offset : Nat)
  /-- A `*json.UnmarshalTypeError`, with its `Value` and the name of the Go type. -/
  | unmarshalTypeError (value : String) (goType : String)
  /-- Any other error, as an HTTP client or a response body may return. -/
  | other (code : Nat)
  deriving DecidableEq, Repr

/-- The run-time panics of the code under study. -/
inductive Panic where
  /-- A nil pointer dereference. -/
  | nilDereference
  /-- An index out of range. -/
  | indexOutOfRange
  deriving DecidableEq, Repr

/-- How a Go call ends: it returns a value or it panics. -/
inductive Outcome (α : Type) where
  | ret (a : α)
  | panic (p : Panic)
  deriving DecidableEq, Repr

/-! ## `net/url` -/

/-- The fields of a Go `url.URL` that `url.Parse` fills for the URLs of this package. -/
structure URL where
  Scheme : Bytes
  Opaque : Bytes
  Host : Bytes
  Path : Bytes
  RawQuery : Bytes
  Fragment : Bytes
  deriving DecidableEq, Repr

/-- The Go function `stringContainsCTLByte` of `net/url`: some byte is below 0x20 or is
0x7f. -/
def stringContainsCTLByte (s : Bytes) : Bool :=
  s.any (fun b => decide (b < 0x20 ∨ b = 0x7f))

/-- The first pass of `unescape` in `net/url` for the modes that do not restrict the
unescaped bytes (query component and fragment): every `%` is followed by two hexadecimal
digits. -/
def validEscapes : Bytes → Bool
  | [] => true
  | 0x25 :: a :: b :: rest => ishex a && ishex b && validEscapes rest
  | 0x25 :: _ => false
  | _ :: rest => validEscapes rest

/-- The second pass of `unescape` in `net/url`: `%XX` becomes the byte XX, and `+` becomes
a space when `plus` is set (query component mode). -/
def unescapeBytes (plus : Bool) : Bytes → Bytes
  | [] => []
  | 0x25 :: a :: b :: rest => (unhex a * 16 + unhex b) :: unescapeBytes plus rest
  | c :: rest => (if c = 0x2B ∧ plus then 0x20 else c) :: unescapeBytes plus rest

/-- The Go function `url.QueryUnescape`; `none` is an `EscapeError`. -/
def QueryUnescape (s : Bytes) : Option Bytes :=
  if validEscapes s then some (unescapeBytes true s) else none

/-- The scan of `getScheme` in `net/url`, at index `i` with `acc` the bytes read so far:
`none` is the error "missing protocol scheme"; otherwise the scheme and the rest. -/
def getSchemeAux (whole : Bytes) : Nat → Bytes → Bytes → Option (Bytes × Bytes)
  | _, _, [] => some ([], whole)
  | i, acc, c :: cs =>
    if (0x61 ≤ c ∧ c ≤ 0x7A) ∨ (0x41 ≤ c ∧ c ≤ 0x5A) then getSchemeAux whole (i + 1) (acc ++ [c]) cs
    else if (0x30 ≤ c ∧ c ≤ 0x39) ∨ c = 0x2B ∨ c = 0x2D ∨ c = 0x2E then
      if i = 0 then some ([], whole) else getSchemeAux whole (i + 1) (acc ++ [c]) cs
    else if c = 0x3A then
      if i = 0 then none else some (acc, cs)
    else some ([], whole)

/-- The Go function `getScheme` of `net/url`. -/
def getScheme (rawURL : Bytes) : Option (Bytes × Bytes) :=
  getSchemeAux rawURL 0 [] rawURL

/-- Lower-casing of ASCII letters (`strings.ToLower` on an ASCII scheme). -/
def toLowerASCII (s : Bytes) : Bytes :=
  s.map (fun c => if 0x41 ≤ c ∧ c ≤ 0x5A then c + 0x20 else c)

/-- The Go method `(*URL).setPath` of `net/url`, as far as the `Path` field goes: the
path is unescaped, and a malformed percent escape is an error. -/
def setPath (p : Bytes) : Except GoError Bytes :=
  if validEscapes p then .ok (unescapeBytes false p)
  else .error (.urlError "parse" "invalid URL escape")

/-- The Go function `parse` of `net/url` with `viaRequest = false`. The control-byte check,
the scheme, the split of the query at the first `?`, the split of authority and path and
the unescaping of the path follow the library. The authority is taken as the host
unchanged, which is what `parseAuthority` returns for a plain host name (no user
information, port, bracket or percent escape), the only kind of host this package uses. -/
def parse (rawURL : Bytes) : Except GoError URL :=
  if stringContainsCTLByte rawURL then
    .error (.urlError "parse" "net/url: invalid control character in URL")
  else if rawURL = str "*" then
    .ok { Scheme := [], Opaque := [], Host := [], Path := str "*", RawQuery := [], Fragment := [] }
  else
    match getScheme rawURL with
    | none => .error (.urlError "parse" "missing protocol scheme")
    | some (scheme, rest0) =>
      let scheme := toLowerASCII scheme
      let forceQuery : Bool := rest0.getLast? = some 0x3F ∧ rest0.count 0x3F = 1
      let rest := if forceQuery then rest0.dropLast else (cut 0x3F rest0).1
      let rawQuery := if forceQuery then [] else (cut 0x3F rest0).2.1
      if ¬ hasPrefix rest [0x2F] ∧ scheme ≠ [] then
        .ok { Scheme := scheme, Opaque := rest, Host := [], Path := [], RawQuery := rawQuery,
              Fragment := [] }
      else if ¬ hasPrefix rest [0x2F] ∧ (cut 0x2F rest).1.contains 0x3A then
        .error (.urlError "parse" "first path segment in URL cannot contain colon")
      else
        let hasAuthority : Bool :=
          (scheme ≠ [] ∨ ¬ hasPrefix rest (str "///")) ∧ hasPrefix rest (str "//")
        let authority := rest.drop 2
        let host := if hasAuthority then (cut 0x2F authority).1 else []
        let pathText :=
          if hasAuthority then
            (if (cut 0x2F authority).2.2 then 0x2F :: (cut 0x2F authority).2.1 else [])
          else rest
        match setPath pathText with
        | .error e => .error e
        | .ok path =>
          .ok { Scheme := scheme, Opaque := [], Host := host, Path := path, RawQuery := rawQuery,
                Fragment := [] }

/-- The Go function `url.Parse`: the fragment is cut off at the first `#`, the rest is
parsed, and the fragment is unescaped (a malformed percent escape in it is an error). -/
def urlParse (rawURL : Bytes) : Except GoError URL :=
  let u := (cut 0x23 rawURL).1
  let frag := (cut 0x23 rawURL).2.1
  match parse u with
  | .error e => .error e
  | .ok url =>
    if frag = [] then .ok url
    else if validEscapes frag then .ok { url with Fragment := unescapeBytes false frag }
    else .error (.urlError "parse" "invalid URL escape")

/-- A Go `url.Values`: the values of each key, in the order they were added. -/
abbrev Values := List (Bytes × List Bytes)

/-- The values stored under a key (`m[key]`). -/
def Values.get (m : Values) (key : Bytes) : List Bytes :=
  match m.find? (fun kv => decide (kv.1 = key)) with
  | some kv => kv.2
  | none => []

/-- The statement `m[key] = append(m[key], value)`. -/
def Values.add : Values → Bytes → Bytes → Values
  | [], key, value => [(key, [value])]
  | (k, vs) :: m, key, value =>
    if k = key then (k, vs ++ [value]) :: m else (k, vs) :: Values.add m key value

/-- One iteration of the loop of `parseQuery` in `net/url`, on the text `pair` between two
`&`: a pair with a semicolon, an empty pair or a pair with a malformed escape is skipped. -/
def parseQueryPair (m : Values) (pair : Bytes) : Values :=
  if pair.contains 0x3B then m
  else if pair = [] then m
  else
    match QueryUnescape (cut 0x3D pair).1, QueryUnescape (cut 0x3D pair).2.1 with
    | some key, some value => Values.add m key value
    | _, _ => m

/-- The loop of `parseQuery` in `net/url`; `cur` holds the bytes of the pair being read. -/
def parseQueryLoop (m : Values) (cur : Bytes) : Bytes → Values
  | [] => parseQueryPair m cur
  | c :: cs =>
    if c = 0x26 then parseQueryLoop (parseQueryPair m cur) [] cs
    else parseQueryLoop m (cur ++ [c]) cs

/-- The Go method `(*URL).Query`: `ParseQuery(u.RawQuery)` with the error dropped. -/
def URL.Query (u : URL) : Values :=
  parseQueryLoop [] [] u.RawQuery

/-! ## `unicode/utf8` and string literals of `encoding/json` -/

/-- A UTF-8 continuation byte. -/
def isCont (b : Nat) : Bool := 0x80 ≤ b ∧ b ≤ 0xBF

/-- The Go function `utf8.DecodeRune`: the first code point of the text and its width in
bytes; a malformed encoding yields U+FFFD with width 1 (width 0 on empty text). -/
def decodeRune : Bytes → Nat × Nat
  | [] => (0xFFFD, 0)
  | b0 :: rest =>
    if b0 < 0x80 then (b0, 1)
    else if 0xC2 ≤ b0 ∧ b0 ≤ 0xDF then
      match rest with
      | b1 :: _ => if isCont b1 then ((b0 - 0xC0) * 64 + (b1 - 0x80), 2) else (0xFFFD, 1)
      | _ => (0xFFFD, 1)
    else if 0xE0 ≤ b0 ∧ b0 ≤ 0xEF then
      match rest with
      | b1 :: b2 :: _ =>
        if (if b0 = 0xE0 then 0xA0 else 0x80) ≤ b1 ∧ b1 ≤ (if b0 = 0xED then 0x9F else 0xBF)
            ∧ isCont b2 then
          (((b0 - 0xE0) * 64 + (b1 - 0x80)) * 64 + (b2 - 0x80), 3)
        else (0xFFFD, 1)
      | _ => (0xFFFD, 1)
    else if 0xF0 ≤ b0 ∧ b0 ≤ 0xF4 then
      match rest with
      | b1 :: b2 :: b3 :: _ =>
        if (if b0 = 0xF0 then 0x90 else 0x80) ≤ b1 ∧ b1 ≤ (if b0 = 0xF4 then 0x8F else 0xBF)
            ∧ isCont b2 ∧ isCont b3 then
          ((((b0 - 0xF0) * 64 + (b1 - 0x80)) * 64 + (b2 - 0x80)) * 64 + (b3 - 0x80), 4)
        else (0xFFFD, 1)
      | _ => (0xFFFD, 1)
    else (0xFFFD, 1)

/-- The Go function `getu4` of `encoding/json`: the value of a `\uXXXX` escape at the head
of the text, `none` (the library's -1) when there is none. -/
def getu4 : Bytes → Option Nat
  | 0x5C :: 0x75 :: a :: b :: c :: d :: _ =>
    if ishex a && ishex b && ishex c && ishex d then
      some (((unhex a * 16 + unhex b) * 16 + unhex c) * 16 + unhex d)
    else none
  | _ => none

/-- The byte an escape letter of a JSON string stands for (`\n`, `\t`, ...; `\"`, `\\` and
`\/` stand for themselves). -/
def escapeByte (e : Nat) : Nat :=
  if e = 0x62 then 0x08
  else if e = 0x66 then 0x0C
  else if e = 0x6E then 0x0A
  else if e = 0x72 then 0x0D
  else if e = 0x74 then 0x09
  else e

/-- The loop of the Go function `unquoteBytes` of `encoding/json` on the text between the
quotes of a string literal: escapes are replaced, a surrogate pair of `\u` escapes is
combined, and malformed UTF-8 is coerced to U+FFFD. `skip` counts the bytes of the text
that the previous step has already consumed. The failure exits of the library (a stray
quote, a control byte, an unknown escape) cannot be taken on a literal that the scanner
accepted; the model stops there. -/
def unquoteAux : Nat → Bytes → Bytes
  | _, [] => []
  | skip + 1, _ :: rest => unquoteAux skip rest
  | 0, c :: rest =>
    if c = 0x5C then
      match rest with
      | [] => []
      | e :: _ =>
        if e = 0x75 then
          match getu4 (c :: rest) with
          | none => []
          | some rr =>
            if 0xD800 ≤ rr ∧ rr < 0xE000 then
              match getu4 (rest.drop 5) with
              | some rr1 =>
                if rr < 0xDC00 ∧ 0xDC00 ≤ rr1 ∧ rr1 < 0xE000 then
                  encodeRune ((rr - 0xD800) * 1024 + (rr1 - 0xDC00) + 0x10000)
                    ++ unquoteAux 11 rest
                else encodeRune 0xFFFD ++ unquoteAux 5 rest
              | none => encodeRune 0xFFFD ++ unquoteAux 5 rest
            else encodeRune rr ++ unquoteAux 5 rest
        else escapeByte e :: unquoteAux 1 rest
    else if c < 0x80 then c :: unquoteAux 0 rest
    else encodeRune (decodeRune (c :: rest)).1 ++ unquoteAux ((decodeRune (c :: rest)).2 - 1) rest

/-- The Go function `unquoteBytes` of `encoding/json`, applied to the text between the
quotes. -/
def unquote (s : Bytes) : Bytes := unquoteAux 0 s

/-! ## The scanner of `encoding/json` -/

/-- A JSON value as the decoder reads it off the scanned text: a number keeps its literal
text, a string and an object key are unquoted, and the members of an object keep their
order. -/
inductive JSON where
  | null
  | bool (b : Bool)
  | number (lit : Bytes)
  | string (s : Bytes)
  | array (elems : List JSON)
  | object (members : List (Bytes × JSON))

/-- An entry of the scanner's `parseState` stack (`parseObjectKey`, `parseObjectValue`,
`parseArrayValue`), together with the part of the enclosing array or object read so far
and the object key waiting for its value. -/
inductive Frame where
  | parseObjectKey (members : List (Bytes × JSON)) (key : Option Bytes)
  | parseObjectValue (members : List (Bytes × JSON)) (key : Option Bytes)
  | parseArrayValue (elems : List JSON)

/-- The state functions of the scanner (`scanner.step`). -/
inductive StepFn where
  | stateBeginValueOrEmpty | stateBeginValue | stateBeginStringOrEmpty | stateBeginString
  | stateEndValue | stateEndTop
  | stateInString | stateInStringEsc | stateInStringEscU | stateInStringEscU1
  | stateInStringEscU12 | stateInStringEscU123
  | stateNeg | state1 | state0 | stateDot | stateDot0 | stateE | stateESign | stateE0
  | stateT | stateTr | stateTru | stateF | stateFa | stateFal | stateFals
  | stateN | stateNu | stateNul
  | stateError
  deriving DecidableEq, Repr

/-- The Go struct `scanner` of `encoding/json`, with the values read so far: `lit` is
the text of the literal being read and `top` the completed top-level value. -/
structure Scanner where
  step : StepFn
  parseState : List Frame
  err : Option GoError
  endTop : Bool
  bytes : Nat
  lit : Bytes
  top : Option JSON

/-- The constant `maxNestingDepth` of `encoding/json`. -/
def maxNestingDepth : Nat := 10000

/-- The Go function `isSpace` of `encoding/json`. -/
def isSpace (c : Nat) : Bool := c = 0x20 ∨ c = 0x09 ∨ c = 0x0D ∨ c = 0x0A

/-- A decimal digit. -/
def isDigit (c : Nat) : Bool := 0x30 ≤ c ∧ c ≤ 0x39

/-- The Go method `(*scanner).reset`. -/
def Scanner.reset : Scanner :=
  { step := .stateBeginValue, parseState := [], err := none, endTop := false, bytes := 0,
    lit := [], top := none }

/-- The Go method `(*scanner).error`: the scan stops with a `SyntaxError` at the current
offset. -/
def Scanner.error (s : Scanner) : Scanner :=
  { s with step := .stateError, err := some (.syntaxError s.bytes) }

/-- A value has been read to its end: it becomes the top-level value, the next element
of the enclosing array, the pending key of the enclosing object or the value of its
pending key. -/
def Scanner.store (s : Scanner) (v : JSON) : Scanner :=
  match s.parseState with
  | [] => { s with top := some v }
  | .parseArrayValue es :: st => { s with parseState := .parseArrayValue (es ++ [v]) :: st }
  | .parseObjectKey ms _ :: st =>
    match v with
    | .string k => { s with parseState := .parseObjectKey ms (some k) :: st }
    | _ => s
  | .parseObjectValue ms (some k) :: st =>
    { s with parseState := .parseObjectValue (ms ++ [(k, v)]) none :: st }
  | .parseObjectValue _ none :: _ => s

/-- The Go method `(*scanner).pushParseState`. -/
def Scanner.pushParseState (s : Scanner) (f : Frame) : Scanner :=
  if s.parseState.length + 1 ≤ maxNestingDepth then { s with parseState := f :: s.parseState }
  else Scanner.error { s with parseState := f :: s.parseState }

/-- The Go method `(*scanner).popParseState`; the array or object that ends here is
stored as a value of the enclosing state. -/
def Scanner.popParseState (s : Scanner) : Scanner :=
  match s.parseState with
  | [] => s
  | f :: st =>
    let v : JSON :=
      match f with
      | .parseArrayValue es => .array es
      | .parseObjectKey ms _ => .object ms
      | .parseObjectValue ms _ => .object ms
    let s1 : Scanner :=
      if st.length = 0 then { s with parseState := st, step := .stateEndTop, endTop := true }
      else { s with parseState := st, step := .stateEndValue }
    s1.store v

/-- The Go function `stateEndTop`. -/
def stateEndTop (s : Scanner) (c : Nat) : Scanner :=
  if ¬ isSpace c then s.error else s

/-- The Go function `stateEndValue`. -/
def stateEndValue (s : Scanner) (c : Nat) : Scanner :=
  match s.parseState with
  | [] => stateEndTop { s with step := .stateEndTop, endTop := true } c
  | ps :: st =>
    if isSpace c then { s with step := .stateEndValue }
    else
      match ps with
      | .parseObjectKey ms key =>
        if c = 0x3A then
          { s with parseState := .parseObjectValue ms key :: st, step := .stateBeginValue }
        else s.error
      | .parseObjectValue ms key =>
        if c = 0x2C then
          { s with parseState := .parseObjectKey ms key :: st, step := .stateBeginString }
        else if c = 0x7D then s.popParseState
        else s.error
      | .parseArrayValue _ =>
        if c = 0x2C then { s with step := .stateBeginValue }
        else if c = 0x5D then s.popParseState
        else s.error

/-- The Go function `stateBeginValue`. -/
def stateBeginValue (s : Scanner) (c : Nat) : Scanner :=
  if isSpace c then s
  else if c = 0x7B then
    Scanner.pushParseState { s with step := .stateBeginStringOrEmpty } (.parseObjectKey [] none)
  else if c = 0x5B then
    Scanner.pushParseState { s with step := .stateBeginValueOrEmpty } (.parseArrayValue [])
  else if c = 0x22 then { s with step := .stateInString, lit := [] }
  else if c = 0x2D then { s with step := .stateNeg, lit := [c] }
  else if c = 0x30 then { s with step := .state0, lit := [c] }
  else if c = 0x74 then { s with step := .stateT }
  else if c = 0x66 then { s with step := .stateF }
  else if c = 0x6E then { s with step := .stateN }
  else if 0x31 ≤ c ∧ c ≤ 0x39 then { s with step := .state1, lit := [c] }
  else s.error

/-- The Go function `stateBeginString`. -/
def stateBeginString (s : Scanner) (c : Nat) : Scanner :=
  if isSpace c then s
  else if c = 0x22 then { s with step := .stateInString, lit := [] }
  else s.error

/-- The Go function `state0`, reached after a leading `0` and shared by the other number
states: the number ends at a byte that cannot continue it. -/
def state0 (s : Scanner) (c : Nat) : Scanner :=
  if c = 0x2E then { s with step := .stateDot, lit := s.lit ++ [c] }
  else if c = 0x65 ∨ c = 0x45 then { s with step := .stateE, lit := s.lit ++ [c] }
  else stateEndValue (s.store (.number s.lit)) c

/-- The Go function `stateESign`. -/
def stateESign (s : Scanner) (c : Nat) : Scanner :=
  if isDigit c then { s with step := .stateE0, lit := s.lit ++ [c] }
  else s.error

/-- One byte of a literal `true`, `false` or `null`: the expected byte moves the scanner
to the next state, any other byte is an error. -/
def literalByte (s : Scanner) (c expected : Nat) (next : StepFn) : Scanner :=
  if c = expected then { s with step := next } else s.error

/-- The last byte of a literal `true`, `false` or `null`. -/
def literalEnd (s : Scanner) (c expected : Nat) (v : JSON) : Scanner :=
  if c = expected then Scanner.store { s with step := .stateEndValue } v else s.error

/-- One hexadecimal digit of a `\u` escape in a string. -/
def hexByte (s : Scanner) (c : Nat) (next : StepFn) : Scanner :=
  if ishex c then { s with step := next, lit := s.lit ++ [c] } else s.error

/-- The call `s.step(s, c)`: the state function in `s.step` applied to the byte `c`. -/
def Scanner.stepByte (s : Scanner) (c : Nat) : Scanner :=
  match s.step with
  | .stateBeginValueOrEmpty =>
    if isSpace c then s
    else if c = 0x5D then stateEndValue s c
    else stateBeginValue s c
  | .stateBeginValue => stateBeginValue s c
  | .stateBeginStringOrEmpty =>
    if isSpace c then s
    else if c = 0x7D then
      match s.parseState with
      | .parseObjectKey ms key :: st =>
        stateEndValue { s with parseState := .parseObjectValue ms key :: st } c
      | _ => stateEndValue s c
    else stateBeginString s c
  | .stateBeginString => stateBeginString s c
  | .stateEndValue => stateEndValue s c
  | .stateEndTop => stateEndTop s c
  | .stateInString =>
    if c = 0x22 then Scanner.store { s with step := .stateEndValue } (.string (unquote s.lit))
    else if c = 0x5C then { s with step := .stateInStringEsc, lit := s.lit ++ [c] }
    else if c < 0x20 then s.error
    else { s with lit := s.lit ++ [c] }
  | .stateInStringEsc =>
    if c = 0x62 ∨ c = 0x66 ∨ c = 0x6E ∨ c = 0x72 ∨ c = 0x74 ∨ c = 0x5C ∨ c = 0x2F ∨ c = 0x22 then
      { s with step := .stateInString, lit := s.lit ++ [c] }
    else if c = 0x75 then { s with step := .stateInStringEscU, lit := s.lit ++ [c] }
    else s.error
  | .stateInStringEscU => hexByte s c .stateInStringEscU1
  | .stateInStringEscU1 => hexByte s c .stateInStringEscU12
  | .stateInStringEscU12 => hexByte s c .stateInStringEscU123
  | .stateInStringEscU123 => hexByte s c .stateInString
  | .stateNeg =>
    if c = 0x30 then { s with step := .state0, lit := s.lit ++ [c] }
    else if 0x31 ≤ c ∧ c ≤ 0x39 then { s with step := .state1, lit := s.lit ++ [c] }
    else s.error
  | .state1 =>
    if isDigit c then { s with step := .state1, lit := s.lit ++ [c] }
    else state0 s c
  | .state0 => state0 s c
  | .stateDot =>
    if isDigit c then { s with step := .stateDot0, lit := s.lit ++ [c] }
    else s.error
  | .stateDot0 =>
    if isDigit c then { s with lit := s.lit ++ [c] }
    else if c = 0x65 ∨ c = 0x45 then { s with step := .stateE, lit := s.lit ++ [c] }
    else stateEndValue (s.store (.number s.lit)) c
  | .stateE =>
    if c = 0x2B ∨ c = 0x2D then { s with step := .stateESign, lit := s.lit ++ [c] }
    else stateESign s c
  | .stateESign => stateESign s c
  | .stateE0 =>
    if isDigit c then { s with lit := s.lit ++ [c] }
    else stateEndValue (s.store (.number s.lit)) c
  | .stateT => literalByte s c 0x72 .stateTr
  | .stateTr => literalByte s c 0x75 .stateTru
  | .stateTru => literalEnd s c 0x65 (.bool true)
  | .stateF => literalByte s c 0x61 .stateFa
  | .stateFa => literalByte s c 0x6C .stateFal
  | .stateFal => literalByte s c 0x73 .stateFals
  | .stateFals => literalEnd s c 0x65 (.bool false)
  | .stateN => literalByte s c 0x75 .stateNu
  | .stateNu => literalByte s c 0x6C .stateNul
  | .stateNul => literalEnd s c 0x6C .null
  | .stateError => s

/-- The loop of the Go function `checkValid`: each byte is counted and handed to the
current state function; the scan stops at the first error. -/
def scanBytes (s : Scanner) : Bytes → Scanner
  | [] => s
  | c :: cs =>
    let s1 := Scanner.stepByte { s with bytes := s.bytes + 1 } c
    if s1.step = .stateError then s1 else scanBytes s1 cs

/-- The Go method `(*scanner).eof`. -/
def Scanner.eof (s : Scanner) : Scanner :=
  if s.err.isSome then s
  else if s.endTop then s
  else
    let s1 := s.stepByte 0x20
    if s1.endTop then s1
    else if s1.err.isNone then { s1 with err := some (.syntaxError s1.bytes) }
    else s1

/-- The Go function `checkValid` of `encoding/json`, returning besides the verdict the
value that the text denotes: a `SyntaxError` when the text is not one JSON value. -/
def checkValid (data : Bytes) : Except GoError JSON :=
  let s := (scanBytes Scanner.reset data).eof
  match s.err, s.top with
  | some e, _ => .error e
  | none, some v => .ok v
  | none, none => .error (.syntaxError s.bytes)

/-! ## The response types of `osm.go` and their decoding -/

/-- A Go `float64` field, represented by the text of the JSON number it was converted
from (the zero value is the text `0`); the rounding to a binary float is not modelled. -/
abbrev Float64 := Bytes

/-- The Go struct `OSMAddress`. -/
structure OSMAddress where
  City : Bytes
  Municipality : Bytes
  State : Bytes
  Region : Bytes
  Postcode : Bytes
  Country : Bytes
  CountryCode : Bytes
  deriving DecidableEq, Repr

/-- The Go struct `OSMItem`. -/
structure OSMItem where
  Lat : Bytes
  Long : Bytes
  Class : Bytes
  /-- The Go field `Type` (a reserved word here). -/
  Type_ : Bytes
  Importance : Float64
  Address : OSMAddress
  deriving DecidableEq, Repr

/-- The Go type `OSMResponse`, a slice of `OSMItem`; the nil slice and the empty slice are
both the empty list. -/
abbrev OSMResponse := List OSMItem

/-- The zero value of `OSMAddress`. -/
def OSMAddress.zero : OSMAddress :=
  { City := [], Municipality := [], State := [], Region := [], Postcode := [], Country := [],
    CountryCode := [] }

/-- The zero value of `OSMItem`. -/
def OSMItem.zero : OSMItem :=
  { Lat := [], Long := [], Class := [], Type_ := [], Importance := str "0",
    Address := OSMAddress.zero }

/-- The fields of `OSMAddress`. -/
inductive AddressField where
  | City | Municipality | State | Region | Postcode | Country | CountryCode
  deriving DecidableEq, Repr

/-- The `json` tag of each field of `OSMAddress`. -/
def AddressField.tag : AddressField → Bytes
  | .City => str "city"
  | .Municipality => str "municipality"
  | .State => str "state"
  | .Region => str "region"
  | .Postcode => str "postcode"
  | .Country => str "country"
  | .CountryCode => str "country_code"

/-- The fields of `OSMAddress` in declaration order. -/
def AddressField.all : List AddressField :=
  [.City, .Municipality, .State, .Region, .Postcode, .Country, .CountryCode]

/-- The fields of `OSMItem`. -/
inductive ItemField where
  | Lat | Long | Class | Type_ | Importance | Address
  deriving DecidableEq, Repr

/-- The `json` tag of each field of `OSMItem`. -/
def ItemField.tag : ItemField → Bytes
  | .Lat => str "lat"
  | .Long => str "long"
  | .Class => str "class"
  | .Type_ => str "type"
  | .Importance => str "importance"
  | .Address => str "address"

/-- The fields of `OSMItem` in declaration order. -/
def ItemField.all : List ItemField :=
  [.Lat, .Long, .Class, .Type_, .Importance, .Address]

/-- The Go function `foldName` of `encoding/json`, as far as a comparison with an ASCII
field name can tell: ASCII letters are folded to upper case, the Kelvin sign (U+212A) to
`K` and the long s (U+017F) to `S`; every other rune folds to a rune outside ASCII and
is left as it is. -/
def foldName : Bytes → Bytes
  | [] => []
  | 0xE2 :: 0x84 :: 0xAA :: rest => 0x4B :: foldName rest
  | 0xC5 :: 0xBF :: rest => 0x53 :: foldName rest
  | c :: rest => (if 0x61 ≤ c ∧ c ≤ 0x7A then c - 0x20 else c) :: foldName rest

/-- The field that an object key selects among fields with the given tags: the field
whose tag is the key, else the first field whose tag equals the key under case folding,
else none (the member is skipped). -/
def findField {φ : Type} (all : List φ) (tag : φ → Bytes) (key : Bytes) : Option φ :=
  match all.find? (fun f => decide (tag f = key)) with
  | some f => some f
  | none => all.find? (fun f => decide (foldName (tag f) = foldName key))

/-- The `Value` of the `UnmarshalTypeError` for a JSON value of the wrong kind. -/
def JSON.kind : JSON → String
  | .null => "null"
  | .bool _ => "bool"
  | .number _ => "number"
  | .string _ => "string"
  | .array _ => "array"
  | .object _ => "object"

/-- The value of a string of decimal digits. -/
def digitsValue (ds : Bytes) : Nat :=
  ds.foldl (fun a d => a * 10 + (d - 0x30)) 0

/-- Whether `strconv.ParseFloat(lit, 64)` reports a range error on a JSON number: its
magnitude, the digits `m` scaled by the power of ten `e`, is at least 2^1024 - 2^970, the
least magnitude that rounds to infinity. -/
def float64Overflows (lit : Bytes) : Bool :=
  let body := if lit.head? = some 0x2D then lit.tail else lit
  let mant := body.takeWhile (fun c => decide (c ≠ 0x65 ∧ c ≠ 0x45))
  let expo := (body.dropWhile (fun c => decide (c ≠ 0x65 ∧ c ≠ 0x45))).tail
  let intDigits := mant.takeWhile (fun c => decide (c ≠ 0x2E))
  let fracDigits := (mant.dropWhile (fun c => decide (c ≠ 0x2E))).tail
  let m := digitsValue (intDigits ++ fracDigits)
  let expValue : Int := digitsValue (expo.filter isDigit)
  let e : Int := (if expo.head? = some 0x2D then - expValue else expValue) - fracDigits.length
  let limit : Nat := 2 ^ 1024 - 2 ^ 970
  if 0 ≤ e then decide (limit ≤ m * 10 ^ e.toNat) else decide (limit * 10 ^ (- e).toNat ≤ m)

/-- Decoding a JSON value into a Go `string` that holds `cur`: a string is stored, `null`
changes nothing, any other value is an `UnmarshalTypeError`. -/
def storeString (cur : Bytes) : JSON → Except GoError Bytes
  | .null => .ok cur
  | .string s => .ok s
  | v => .error (.unmarshalTypeError v.kind "string")

/-- Decoding a JSON value into a Go `float64` that holds `cur`: a number in range is
stored, `null` changes nothing, any other value is an `UnmarshalTypeError`. -/
def storeFloat64 (cur : Float64) : JSON → Except GoError Float64
  | .null => .ok cur
  | .number lit =>
    if float64Overflows lit then
      .error (.unmarshalTypeError ("number " ++ String.mk (lit.map Char.ofNat)) "float64")
    else .ok lit
  | v => .error (.unmarshalTypeError v.kind "float64")

/-- Decoding a JSON value into one field of an `OSMAddress`. -/
def setAddressField (a : OSMAddress) (f : AddressField) (v : JSON) : Except GoError OSMAddress :=
  match f with
  | .City => (storeString a.City v).map (fun x => { a with City := x })
  | .Municipality => (storeString a.Municipality v).map (fun x => { a with Municipality := x })
  | .State => (storeString a.State v).map (fun x => { a with State := x })
  | .Region => (storeString a.Region v).map (fun x => { a with Region := x })
  | .Postcode => (storeString a.Postcode v).map (fun x => { a with Postcode := x })
  | .Country => (storeString a.Country v).map (fun x => { a with Country := x })
  | .CountryCode => (storeString a.CountryCode v).map (fun x => { a with CountryCode := x })

/-- Decoding the members of a JSON object into an `OSMAddress`, in order; a member whose
key selects no field is skipped. -/
def decodeAddressMembers (a : OSMAddress) : List (Bytes × JSON) → Except GoError OSMAddress
  | [] => .ok a
  | (key, v) :: ms =>
    match findField AddressField.all AddressField.tag key with
    | none => decodeAddressMembers a ms
    | some f =>
      match setAddressField a f v with
      | .error e => .error e
      | .ok a1 => decodeAddressMembers a1 ms

/-- Decoding a JSON value into a Go `OSMAddress` that holds `cur`. -/
def decodeAddress (cur : OSMAddress) : JSON → Except GoError OSMAddress
  | .null => .ok cur
  | .object ms => decodeAddressMembers cur ms
  | v => .error (.unmarshalTypeError v.kind "osm.OSMAddress")

/-- Decoding a JSON value into one field of an `OSMItem`. -/
def setItemField (it : OSMItem) (f : ItemField) (v : JSON) : Except GoError OSMItem :=
  match f with
  | .Lat => (storeString it.Lat v).map (fun x => { it with Lat := x })
  | .Long => (storeString it.Long v).map (fun x => { it with Long := x })
  | .Class => (storeString it.Class v).map (fun x => { it with Class := x })
  | .Type_ => (storeString it.Type_ v).map (fun x => { it with Type_ := x })
  | .Importance => (storeFloat64 it.Importance v).map (fun x => { it with Importance := x })
  | .Address => (decodeAddress it.Address v).map (fun x => { it with Address := x })

/-- Decoding the members of a JSON object into an `OSMItem`, in order. -/
def decodeItemMembers (it : OSMItem) : List (Bytes × JSON) → Except GoError OSMItem
  | [] => .ok it
  | (key, v) :: ms =>
    match findField ItemField.all ItemField.tag key with
    | none => decodeItemMembers it ms
    | some f =>
      match setItemField it f v with
      | .error e => .error e
      | .ok it1 => decodeItemMembers it1 ms

/-- Decoding a JSON value into a Go `OSMItem` that holds `cur`. -/
def decodeItem (cur : OSMItem) : JSON → Except GoError OSMItem
  | .null => .ok cur
  | .object ms => decodeItemMembers cur ms
  | v => .error (.unmarshalTypeError v.kind "osm.OSMItem")

/-- Decoding the elements of a JSON array into fresh elements of an `OSMResponse`. -/
def decodeItems : List JSON → Except GoError OSMResponse
  | [] => .ok []
  | v :: vs =>
    match decodeItem OSMItem.zero v with
    | .error e => .error e
    | .ok it =>
      match decodeItems vs with
      | .error e => .error e
      | .ok its => .ok (it :: its)

/-- Decoding a JSON value into an empty `OSMResponse`: an array is decoded element by
element, `null` sets the slice to nil, any other value is an `UnmarshalTypeError`. The
first type error in document order is the one reported. -/
def decodeResponse : JSON → Except GoError OSMResponse
  | .null => .ok []
  | .array vs => decodeItems vs
  | v => .error (.unmarshalTypeError v.kind "osm.OSMResponse")

/-- The call `json.Unmarshal(body, &data)` on `data := OSMResponse{}`: the text is checked
to be valid JSON, then decoded. -/
def Unmarshal (body : Bytes) : Except GoError OSMResponse :=
  match checkValid body with
  | .error e => .error e
  | .ok v => decodeResponse v

/-! ## `net/http` -/

/-- The fields of a Go `http.Request` that matter here; `basicAuth` stands for the
`Authorization` header that `SetBasicAuth` writes. -/
structure Request where
  Method : Bytes
  URL : URL
  Host : Bytes
  basicAuth : Option (Bytes × Bytes)
  deriving DecidableEq, Repr

/-- The Go function `httpguts.IsTokenRune` on a byte: the characters of an HTTP token. -/
def isTokenByte (c : Nat) : Bool :=
  (0x30 ≤ c ∧ c ≤ 0x39) ∨ (0x41 ≤ c ∧ c ≤ 0x5A) ∨ (0x61 ≤ c ∧ c ≤ 0x7A)
    ∨ c ∈ [0x21, 0x23, 0x24, 0x25, 0x26, 0x27, 0x2A, 0x2B, 0x2D, 0x2E, 0x5E, 0x5F, 0x60, 0x7C, 0x7E]

/-- The Go function `http.NewRequest(method, url, nil)`: the request, or `nil` with an
error when the method is not a token or the URL does not parse. -/
def NewRequest (method : Bytes) (url : Bytes) : Option Request × Option GoError :=
  let method := if method = [] then str "GET" else method
  if ¬ method.all isTokenByte then (none, some (.other 0))
  else
    match urlParse url with
    | .error e => (none, some e)
    | .ok u => (some { Method := method, URL := u, Host := u.Host, basicAuth := none }, none)

/-- The Go method `(*Request).SetBasicAuth`; on a nil request it panics. -/
def SetBasicAuth (req : Option Request) (username password : Bytes) : Outcome (Option Request) :=
  match req with
  | none => .panic .nilDereference
  | some r => .ret (some { r with basicAuth := some (username, password) })

/-- A Go `http.Response`: its status code, and what `ioutil.ReadAll(resp.Body)` returns,
the bytes read and the error that ended the reading, if any. -/
structure Response where
  StatusCode : Int
  Body : Bytes × Option GoError
  deriving DecidableEq, Repr

/-- The Go function `ioutil.ReadAll` on a response body. -/
def ReadAll (body : Bytes × Option GoError) : Bytes × Option GoError := body

/-- The Go struct `Client` of `osm.go`. Its field `httpClient`, a `*http.Client`, is
represented by what the client's `Do` returns for a request. -/
structure Client where
  httpClient : Request → Option Response × Option GoError

/-- The Go method `(*http.Client).Do`: it reads `req.URL` first, so a nil request is a
nil pointer dereference. -/
def Client.Do (c : Client) : Option Request → Outcome (Option Response × Option GoError)
  | none => .panic .nilDereference
  | some req => .ret (c.httpClient req)

/-- A run of a function of `osm.go`: the requests passed to `c.httpClient.Do`, in order,
and how the function ended. -/
structure Run (α : Type) where
  calls : List (Option Request)
  out : Outcome α

/-! ## `osm.go` -/

/-- The package variable `ErrWrongStatusCode`. -/
def ErrWrongStatusCode : GoError := .ErrWrongStatusCode

/-- The package variable `ErrNoMatch`. -/
def ErrNoMatch : GoError := .ErrNoMatch

/-- The Go method `(*Client).httpGet`. The error of `http.NewRequest` is assigned and
never read: the next assignment to `err` is the result of `Do`. -/
def httpGet (c : Client) (url : Bytes) (basicAuth : List Bytes) :
    Run (Bytes × Option Response × Option GoError) :=
  let req := (NewRequest (str "GET") url).1
  let authed : Outcome (Option Request) :=
    if basicAuth.length > 0 then
      match basicAuth[0]?, basicAuth[1]? with
      | some user, some password => SetBasicAuth req user password
      | _, _ => .panic .indexOutOfRange
    else .ret req
  match authed with
  | .panic p => { calls := [], out := .panic p }
  | .ret req =>
    match c.Do req with
    | .panic p => { calls := [req], out := .panic p }
    | .ret (resp, err) =>
      if err ≠ none then { calls := [req], out := .ret ([], resp, err) }
      else
        match resp with
        | none => { calls := [req], out := .panic .nilDereference }
        | some r =>
          let read := ReadAll r.Body
          if read.2 ≠ none then { calls := [req], out := .ret ([], resp, read.2) }
          else { calls := [req], out := .ret (read.1, resp, none) }

/-- The text `fmt.Sprintf` builds in `Location2CountryCode`: the verb `%s` writes the
bytes of `location` as they are. -/
def searchURL (location : Bytes) : Bytes :=
  str "https://nominatim.openstreetmap.org/search?q=" ++ location
    ++ str "&format=json&addressdetails=1"

/-- The Go method `(*Client).Location2CountryCode`. -/
def Location2CountryCode (c : Client) (location : Bytes) : Run (Bytes × Option GoError) :=
  let query := searchURL location
  let r := httpGet c query []
  match r.out with
  | .panic p => { calls := r.calls, out := .panic p }
  | .ret (body, resp, err) =>
    if err ≠ none then { calls := r.calls, out := .ret ([], err) }
    else
      match resp with
      | none => { calls := r.calls, out := .panic .nilDereference }
      | some resp =>
        if resp.StatusCode ≠ 200 then { calls := r.calls, out := .ret ([], some ErrWrongStatusCode) }
        else
          match Unmarshal body with
          | .error e => { calls := r.calls, out := .ret ([], some e) }
          | .ok data =>
            if data.length < 1 then { calls := r.calls, out := .ret ([], some ErrNoMatch) }
            else { calls := r.calls, out := .ret ((data.headD OSMItem.zero).Address.CountryCode, none) }

/-! ## Inputs used in the statements -/

/-- The request that `httpGet` builds for a location and passes to `Do`: the first
result of `http.NewRequest`, `nil` when the request cannot be built. -/
def requestFor (location : Bytes) : Option Request :=
  (NewRequest (str "GET") (searchURL location)).1

/-- A client whose `Do` answers every request with the given status and body. -/
def respondWith (status : Int) (body : Bytes) : Client :=
  { httpClient := fun _ => (some { StatusCode := status, Body := (body, none) }, none) }

/-- A client whose `Do` fails on every request with the given error and no response. -/
def failWith (e : GoError) : Client :=
  { httpClient := fun _ => (none, some e) }

/-- The example record of the comment at the head of `osm.go`, as the only element of a
response array. -/
def stockholmBody : Bytes :=
  str "[\x7b\n\t\"place_id\": 128726,\n\t\"licence\": \"Data © OpenStreetMap contributors, ODbL 1.0. https://osm.org/copyright\",\n\t\"osm_type\": \"node\",\n\t\"osm_id\": 25929985,\n\t\"boundingbox\": [\n\t\t\"59.1651172\",\n\t\t\"59.4851172\",\n\t\t\"17.9110935\",\n\t\t\"18.2310935\"\n\t],\n\t\"lat\": \"59.3251172\",\n\t\"lon\": \"18.0710935\",\n\t\"display_name\": \"Stockholm, Stockholms kommun, Stockholms län, Svealand, 111 29, Sverige\",\n\t\"class\": \"place\",\n\t\"type\": \"city\",\n\t\"importance\": 0.840175301943447,\n\t\"icon\": \"https://nominatim.openstreetmap.org/images/mapicons/poi_place_city.p.20.png\",\n\t\"address\": \x7b\n\t\t\"city\": \"Stockholm\",\n\t\t\"municipality\": \"Stockholms kommun\",\n\t\t\"state\": \"Stockholms län\",\n\t\t\"region\": \"Svealand\",\n\t\t\"postcode\": \"111 29\",\n\t\t\"country\": \"Sverige\",\n\t\t\"country_code\": \"se\"\n\t\x7d\n\x7d]"

/-- A response whose first result has an empty country code. -/
def emptyCodeBody : Bytes :=
  str "[\x7b\"address\":\x7b\"country\":\"Sverige\",\"country_code\":\"\"\x7d\x7d,\x7b\"address\":\x7b\"country_code\":\"se\"\x7d\x7d]"

/-- A response whose first result has no country code. -/
def absentCodeBody : Bytes :=
  str "[\x7b\"lat\":\"59.3\",\"address\":\x7b\"country\":\"Sverige\"\x7d\x7d]"

/-- A response with a match, used with a status other than 200. -/
def matchBody : Bytes :=
  str "[\x7b\"address\":\x7b\"country_code\":\"se\"\x7d\x7d]"

/-- A result with the coordinates of the example record under the keys `lat` and `lon`. -/
def coordinatesBody : Bytes :=
  str "[\x7b\"lat\":\"59.3251172\",\"lon\":\"18.0710935\"\x7d]"

/-- The error of a scanner is `nil` or a `SyntaxError`. -/
def Scanner.errIsSyntax (s : Scanner) : Prop :=
  ∀ e, s.err = some e → ∃ n, e = GoError.syntaxError n

/-- A JSON value that is not an array and not `null`: an object, a string, a number or a
boolean. -/
def JSON.isNonArrayValue : JSON → Bool
  | .object _ => true
  | .string _ => true
  | .number _ => true
  | .bool _ => true
  | _ => false

/-- A JSON value that is neither an object nor `null`: a string, a number, a boolean or an
array. -/
def JSON.isNonObjectValue : JSON → Bool
  | .string _ => true
  | .number _ => true
  | .bool _ => true
  | .array _ => true
  | _ => false

/-- The error is an `UnmarshalTypeError`. -/
def GoError.isUnmarshalTypeError : GoError → Bool
  | .unmarshalTypeError _ _ => true
  | _ => false

/-- A byte that leaves the URL of the search request well formed when written into it as
it is: not a control byte, and neither `#` nor `&`. -/
def keepsQueryShape (b : Nat) : Bool :=
  decide (¬ (b < 0x20 ∨ b = 0x7f) ∧ b ≠ 0x23 ∧ b ≠ 0x26)

/-- A byte that a query parser reads back as itself: it keeps the shape of the query and
is none of `;`, `+` and `%`. -/
def readsBackAsItself (b : Nat) : Bool :=
  keepsQueryShape b && decide (b ≠ 0x3B ∧ b ≠ 0x2B ∧ b ≠ 0x25)

/-- The request for a location, when `http.NewRequest` builds one from the text of
`searchURL` split at its first `?`: the location stands unchanged in the raw query. -/
def searchRequest (location : Bytes) : Request :=
  { Method := str "GET",
    URL := { Scheme := str "https", Opaque := [], Host := str "nominatim.openstreetmap.org",
             Path := str "/search",
             RawQuery := str "q=" ++ location ++ str "&format=json&addressdetails=1",
             Fragment := [] },
    Host := str "nominatim.openstreetmap.org", basicAuth := none }

/-! # Theorems -/

/-! ## The call path of `Location2CountryCode` -/

theorem run_of_response (c : Client) (location : Bytes) (resp : Response) (body : Bytes)
    (hdo : c.Do (requestFor location) = .ret (some resp, none))
    (hbody : ReadAll resp.Body = (body, none)) :
    httpGet c (searchURL location) [] =
      { calls := [requestFor location], out := .ret (body, some resp, none) } := by
  unfold requestFor at hdo
  simp [httpGet, requestFor, hdo, hbody]

theorem run_of_do_error (c : Client) (location : Bytes) (r : Option Response) (e : GoError)
    (hdo : c.Do (requestFor location) = .ret (r, some e)) :
    httpGet c (searchURL location) [] =
      { calls := [requestFor location], out := .ret ([], r, some e) } := by
  unfold requestFor at hdo
  simp [httpGet, requestFor, hdo]

theorem run_of_read_error (c : Client) (location : Bytes) (resp : Response) (body : Bytes)
    (e : GoError) (hdo : c.Do (requestFor location) = .ret (some resp, none))
    (hbody : ReadAll resp.Body = (body, some e)) :
    httpGet c (searchURL location) [] =
      { calls := [requestFor location], out := .ret ([], some resp, some e) } := by
  unfold requestFor at hdo
  simp [httpGet, requestFor, hdo, hbody]

theorem errIsSyntax_error (s : Scanner) : s.error.errIsSyntax := by
  intro e h
  simp [Scanner.error] at h
  exact ⟨_, h.symm⟩

theorem errIsSyntax_of_err_eq {s t : Scanner} (h : t.err = s.err) (hs : s.errIsSyntax) :
    t.errIsSyntax := by
  intro e he
  exact hs e (h ▸ he)

theorem store_err (s : Scanner) (v : JSON) : (s.store v).err = s.err := by
  unfold Scanner.store
  split <;> try rfl
  split <;> rfl

theorem errIsSyntax_store {s : Scanner} (v : JSON) (hs : s.errIsSyntax) :
    (s.store v).errIsSyntax :=
  errIsSyntax_of_err_eq (store_err s v) hs

theorem errIsSyntax_pushParseState {s : Scanner} (f : Frame) (hs : s.errIsSyntax) :
    (s.pushParseState f).errIsSyntax := by
  unfold Scanner.pushParseState
  split
  · exact errIsSyntax_of_err_eq rfl hs
  · exact errIsSyntax_error _

theorem errIsSyntax_popParseState {s : Scanner} (hs : s.errIsSyntax) :
    s.popParseState.errIsSyntax := by
  unfold Scanner.popParseState
  split
  · exact hs
  · apply errIsSyntax_store
    split <;> exact errIsSyntax_of_err_eq rfl hs

theorem errIsSyntax_stateEndTop {s : Scanner} (c : Nat) (hs : s.errIsSyntax) :
    (stateEndTop s c).errIsSyntax := by
  unfold stateEndTop
  split
  · exact errIsSyntax_error _
  · exact hs

theorem errIsSyntax_stateEndValue {s : Scanner} (c : Nat) (hs : s.errIsSyntax) :
    (stateEndValue s c).errIsSyntax := by
  unfold stateEndValue
  split
  · exact errIsSyntax_stateEndTop c (errIsSyntax_of_err_eq rfl hs)
  · split
    · exact errIsSyntax_of_err_eq rfl hs
    · repeat' split
      all_goals
        first
        | exact errIsSyntax_of_err_eq rfl hs
        | exact errIsSyntax_error _
        | exact errIsSyntax_popParseState hs

theorem errIsSyntax_stateBeginValue {s : Scanner} (c : Nat) (hs : s.errIsSyntax) :
    (stateBeginValue s c).errIsSyntax := by
  unfold stateBeginValue
  repeat' split
  all_goals
    first
    | exact hs
    | exact errIsSyntax_error _
    | exact errIsSyntax_of_err_eq rfl hs
    | exact errIsSyntax_pushParseState _ (errIsSyntax_of_err_eq rfl hs)

theorem errIsSyntax_stateBeginString {s : Scanner} (c : Nat) (hs : s.errIsSyntax) :
    (stateBeginString s c).errIsSyntax := by
  unfold stateBeginString
  repeat' split
  all_goals
    first
    | exact hs
    | exact errIsSyntax_error _

theorem errIsSyntax_state0 {s : Scanner} (c : Nat) (hs : s.errIsSyntax) :
    (state0 s c).errIsSyntax := by
  unfold state0
  repeat' split
  all_goals
    first
    | exact errIsSyntax_of_err_eq rfl hs
    | exact errIsSyntax_stateEndValue c (errIsSyntax_store _ hs)

theorem errIsSyntax_stateESign {s : Scanner} (c : Nat) (hs : s.errIsSyntax) :
    (stateESign s c).errIsSyntax := by
  unfold stateESign
  split
  · exact errIsSyntax_of_err_eq rfl hs
  · exact errIsSyntax_error _

theorem errIsSyntax_stepByte {s : Scanner} (c : Nat) (hs : s.errIsSyntax) :
    (s.stepByte c).errIsSyntax := by
  unfold Scanner.stepByte literalByte literalEnd hexByte
  split
  all_goals repeat' split
  all_goals
    first
    | exact hs
    | exact errIsSyntax_error _
    | exact errIsSyntax_of_err_eq rfl hs
    | exact errIsSyntax_stateEndValue c hs
    | exact errIsSyntax_stateEndValue c (errIsSyntax_of_err_eq rfl hs)
    | exact errIsSyntax_stateEndValue c (errIsSyntax_store _ hs)
    | exact errIsSyntax_stateBeginValue c hs
    | exact errIsSyntax_stateBeginString c hs
    | exact errIsSyntax_stateEndTop c hs
    | exact errIsSyntax_state0 c hs
    | exact errIsSyntax_stateESign c hs
    | exact errIsSyntax_store _ (errIsSyntax_of_err_eq rfl hs)

theorem errIsSyntax_scanBytes (data : Bytes) : ∀ {s : Scanner}, s.errIsSyntax →
    (scanBytes s data).errIsSyntax := by
  induction data with
  | nil => intro s hs; exact hs
  | cons c cs ih =>
    intro s hs
    have h1 : (Scanner.stepByte { s with bytes := s.bytes + 1 } c).errIsSyntax :=
      errIsSyntax_stepByte c (errIsSyntax_of_err_eq rfl hs)
    unfold scanBytes
    simp only
    split
    · exact h1
    · exact ih h1

theorem errIsSyntax_eof {s : Scanner} (hs : s.errIsSyntax) : s.eof.errIsSyntax := by
  have h1 := errIsSyntax_stepByte 0x20 hs
  unfold Scanner.eof
  by_cases he : s.err.isSome = true
  · simpa [he] using hs
  · by_cases ht : s.endTop = true
    · simpa [he, ht] using hs
    · by_cases h2 : (s.stepByte 0x20).endTop = true
      · simpa [he, ht, h2] using h1
      · by_cases h3 : (s.stepByte 0x20).err.isNone = true
        · simp only [he, ht, h2, h3]
          intro e h
          simp at h
          exact ⟨_, h.symm⟩
        · simpa [he, ht, h2, h3] using h1

/-- Every error of `checkValid` is a `SyntaxError`. -/
theorem checkValid_error {data : Bytes} {e : GoError} (h : checkValid data = .error e) :
    ∃ n, e = GoError.syntaxError n := by
  have hs : ((scanBytes Scanner.reset data).eof).errIsSyntax :=
    errIsSyntax_eof (errIsSyntax_scanBytes data (by intro e he; simp [Scanner.reset] at he))
  unfold checkValid at h
  simp only at h
  split at h
  · rename_i e1 _ he1
    cases h
    exact hs e he1
  · cases h
  · cases h
    exact ⟨_, rfl⟩

/-! ## Decoding: which values are errors -/

theorem storeString_error {cur : Bytes} {v : JSON} {e : GoError}
    (h : storeString cur v = .error e) : e.isUnmarshalTypeError = true := by
  cases v <;> simp [storeString] at h <;> subst h <;> rfl

theorem storeFloat64_error {cur : Float64} {v : JSON} {e : GoError}
    (h : storeFloat64 cur v = .error e) : e.isUnmarshalTypeError = true := by
  cases v <;> simp [storeFloat64] at h
  case number lit =>
    split at h
    · cases h; rfl
    · cases h
  all_goals subst h; rfl

theorem map_error {α β : Type} {x : Except GoError α} {f : α → β} {e : GoError}
    (h : x.map f = .error e) : x = .error e := by
  cases x with
  | error e1 => simpa [Except.map] using h
  | ok a => simp [Except.map] at h

theorem setAddressField_error {a : OSMAddress} {f : AddressField} {v : JSON} {e : GoError}
    (h : setAddressField a f v = .error e) : e.isUnmarshalTypeError = true := by
  cases f <;> exact storeString_error (map_error h)

theorem decodeAddressMembers_error (ms : List (Bytes × JSON)) :
    ∀ {a : OSMAddress} {e : GoError}, decodeAddressMembers a ms = .error e →
      e.isUnmarshalTypeError = true := by
  induction ms with
  | nil => intro a e h; simp [decodeAddressMembers] at h
  | cons kv ms ih =>
    intro a e h
    obtain ⟨key, v⟩ := kv
    unfold decodeAddressMembers at h
    split at h
    · exact ih h
    · split at h
      · rename_i e1 he1
        cases h
        exact setAddressField_error he1
      · exact ih h

theorem decodeAddress_error {cur : OSMAddress} {v : JSON} {e : GoError}
    (h : decodeAddress cur v = .error e) : e.isUnmarshalTypeError = true := by
  cases v <;> simp [decodeAddress] at h
  case object ms => exact decodeAddressMembers_error ms h
  all_goals subst h; rfl

theorem setItemField_error {it : OSMItem} {f : ItemField} {v : JSON} {e : GoError}
    (h : setItemField it f v = .error e) : e.isUnmarshalTypeError = true := by
  cases f
  case Importance => exact storeFloat64_error (map_error h)
  case Address => exact decodeAddress_error (map_error h)
  all_goals exact storeString_error (map_error h)

theorem decodeItemMembers_error (ms : List (Bytes × JSON)) :
    ∀ {it : OSMItem} {e : GoError}, decodeItemMembers it ms = .error e →
      e.isUnmarshalTypeError = true := by
  induction ms with
  | nil => intro it e h; simp [decodeItemMembers] at h
  | cons kv ms ih =>
    intro it e h
    obtain ⟨key, v⟩ := kv
    unfold decodeItemMembers at h
    split at h
    · exact ih h
    · split at h
      · rename_i e1 he1
        cases h
        exact setItemField_error he1
      · exact ih h

theorem decodeItem_error {cur : OSMItem} {v : JSON} {e : GoError}
    (h : decodeItem cur v = .error e) : e.isUnmarshalTypeError = true := by
  cases v <;> simp [decodeItem] at h
  case object ms => exact decodeItemMembers_error ms h
  all_goals subst h; rfl

theorem decodeItems_error (vs : List JSON) :
    ∀ {e : GoError}, decodeItems vs = .error e → e.isUnmarshalTypeError = true := by
  induction vs with
  | nil => intro e h; simp [decodeItems] at h
  | cons v vs ih =>
    intro e h
    unfold decodeItems at h
    split at h
    · rename_i e1 he1
      cases h
      exact decodeItem_error he1
    · split at h
      · rename_i e2 he2
        cases h
        exact ih he2
      · cases h

/-- Every error of the decoding proper is an `UnmarshalTypeError`. -/
theorem decodeResponse_error {v : JSON} {e : GoError} (h : decodeResponse v = .error e) :
    e.isUnmarshalTypeError = true := by
  cases v <;> simp [decodeResponse] at h
  case array vs => exact decodeItems_error vs h
  all_goals subst h; rfl

theorem decodeItems_eq_nil {vs : List JSON} (h : decodeItems vs = .ok []) : vs = [] := by
  cases vs with
  | nil => rfl
  | cons v vs =>
    unfold decodeItems at h
    split at h
    · cases h
    · split at h <;> cases h

/-- The decoding yields a sequence of length zero exactly on the empty array and on
`null`. -/
theorem decodeResponse_eq_nil {v : JSON} :
    decodeResponse v = .ok [] ↔ v = .array [] ∨ v = .null := by
  constructor
  · intro h
    cases v <;> simp [decodeResponse] at h
    case null => exact Or.inr rfl
    case array vs => exact Or.inl (by rw [decodeItems_eq_nil h])
  · rintro (h | h) <;> subst h <;> rfl

theorem decodeResponse_of_isNonArrayValue {v : JSON} (h : v.isNonArrayValue = true) :
    decodeResponse v = .error (.unmarshalTypeError v.kind "osm.OSMResponse") := by
  cases v <;> simp [JSON.isNonArrayValue] at h <;> rfl

theorem decodeItem_of_isNonObjectValue {v : JSON} (h : v.isNonObjectValue = true) :
    decodeItem OSMItem.zero v = .error (.unmarshalTypeError v.kind "osm.OSMItem") := by
  cases v <;> simp [JSON.isNonObjectValue] at h <;> rfl

theorem decodeItems_of_isNonObjectValue (vs : List JSON) :
    (∃ v ∈ vs, v.isNonObjectValue = true) → ∃ e, decodeItems vs = .error e := by
  induction vs with
  | nil => rintro ⟨v, hv, _⟩; cases hv
  | cons w ws ih =>
    rintro ⟨v, hv, hbad⟩
    unfold decodeItems
    cases hw : decodeItem OSMItem.zero w with
    | error e => exact ⟨e, rfl⟩
    | ok it =>
      have hne : v ≠ w := by
        intro hvw
        subst hvw
        rw [decodeItem_of_isNonObjectValue hbad] at hw
        cases hw
      have hmem : v ∈ ws := by
        rcases List.mem_cons.mp hv with h | h
        · exact absurd h hne
        · exact h
      obtain ⟨e, he⟩ := ih ⟨v, hmem, hbad⟩
      exact ⟨e, by simp [he]⟩

/-! ## The URL of the request -/

theorem cut_of_not_mem (sep : Nat) : ∀ l : Bytes, sep ∉ l → cut sep l = (l, [], false) := by
  intro l
  induction l with
  | nil => intro _; rfl
  | cons c cs ih =>
    intro h
    have hc : c ≠ sep := fun hc => h (hc ▸ List.mem_cons_self _ _)
    have hcs : sep ∉ cs := fun hm => h (List.mem_cons_of_mem _ hm)
    simp [cut, hc, ih hcs]

theorem cut_append_sep (sep : Nat) (b : Bytes) :
    ∀ a : Bytes, sep ∉ a → cut sep (a ++ sep :: b) = (a, b, true) := by
  intro a
  induction a with
  | nil => intro _; simp [cut]
  | cons c cs ih =>
    intro h
    have hc : c ≠ sep := fun hc => h (hc ▸ List.mem_cons_self _ _)
    have hcs : sep ∉ cs := fun hm => h (List.mem_cons_of_mem _ hm)
    simp [cut, hc, ih hcs]

theorem searchURL_eq (location : Bytes) :
    searchURL location =
      str "https:" ++ (str "//nominatim.openstreetmap.org/search"
        ++ 0x3F :: (str "q=" ++ location ++ str "&format=json&addressdetails=1")) := by
  have h : str "https://nominatim.openstreetmap.org/search?q="
      = str "https:" ++ (str "//nominatim.openstreetmap.org/search" ++ 0x3F :: str "q=") := by
    rfl
  simp [searchURL, h]

theorem keepsQueryShape_spec {location : Bytes} (h : ∀ b ∈ location, keepsQueryShape b = true) :
    0x23 ∉ location ∧ 0x26 ∉ location ∧ stringContainsCTLByte location = false := by
  refine ⟨?_, ?_, ?_⟩
  · intro hm
    have := h _ hm
    simp [keepsQueryShape] at this
  · intro hm
    have := h _ hm
    simp [keepsQueryShape] at this
  · simp only [stringContainsCTLByte, List.any_eq_false]
    intro b hb
    have := h b hb
    simp only [keepsQueryShape, decide_eq_true_eq] at this
    simpa using this.1

theorem getScheme_https (rest : Bytes) : getScheme (str "https:" ++ rest) = some (str "https", rest) := by
  rfl

theorem parse_searchURL {location : Bytes} (h : ∀ b ∈ location, keepsQueryShape b = true) :
    parse (searchURL location) = .ok (searchRequest location).URL := by
  obtain ⟨_, _, hctl⟩ := keepsQueryShape_spec h
  have h1 : stringContainsCTLByte (searchURL location) = false := by
    have hp : stringContainsCTLByte (str "https://nominatim.openstreetmap.org/search?q=") = false := by
      rfl
    have hs : stringContainsCTLByte (str "&format=json&addressdetails=1") = false := by rfl
    simp only [stringContainsCTLByte] at hp hs hctl ⊢
    simp only [searchURL, List.any_append, hp, hs, hctl, Bool.or_self]
  have h2 : searchURL location ≠ str "*" := by
    have hh : str "https:" = 0x68 :: str "ttps:" := by rfl
    have hs : str "*" = [0x2A] := by rfl
    rw [searchURL_eq, hh, hs]
    intro heq
    have h0 := (List.cons.inj heq).1
    omega
  have h3 : getScheme (searchURL location)
      = some (str "https", str "//nominatim.openstreetmap.org/search"
          ++ 0x3F :: (str "q=" ++ location ++ str "&format=json&addressdetails=1")) := by
    rw [searchURL_eq, getScheme_https]
  have h4 : cut 0x3F (str "//nominatim.openstreetmap.org/search"
          ++ 0x3F :: (str "q=" ++ location ++ str "&format=json&addressdetails=1"))
      = (str "//nominatim.openstreetmap.org/search",
          str "q=" ++ location ++ str "&format=json&addressdetails=1", true) :=
    cut_append_sep 0x3F _ _ (by decide)
  have h5 : (str "//nominatim.openstreetmap.org/search"
          ++ 0x3F :: (str "q=" ++ location ++ str "&format=json&addressdetails=1")).getLast?
      = some 0x31 := by
    have hs : str "&format=json&addressdetails=1" = str "&format=json&addressdetails=" ++ [0x31] := by
      rfl
    rw [hs]
    generalize str "//nominatim.openstreetmap.org/search" = a
    generalize str "q=" = q
    generalize str "&format=json&addressdetails=" = s0
    have hassoc : a ++ 0x3F :: (q ++ location ++ (s0 ++ [0x31]))
        = (a ++ 0x3F :: (q ++ location ++ s0)) ++ [0x31] := by
      simp
    rw [hassoc, List.getLast?_concat]
  unfold parse
  simp only [h1, h2, h3, h4, h5]
  rfl

/-- For a location free of control bytes, `#` and `&`, `http.NewRequest` builds the
request `searchRequest`. -/
theorem requestFor_of_keepsQueryShape {location : Bytes}
    (h : ∀ b ∈ location, keepsQueryShape b = true) :
    requestFor location = some (searchRequest location) := by
  obtain ⟨hhash, _, _⟩ := keepsQueryShape_spec h
  have hcut : cut 0x23 (searchURL location) = (searchURL location, [], false) := by
    apply cut_of_not_mem
    have hp : 0x23 ∉ str "https://nominatim.openstreetmap.org/search?q=" := by decide
    have hs : 0x23 ∉ str "&format=json&addressdetails=1" := by decide
    simp only [searchURL, List.mem_append, not_or]
    exact ⟨⟨hp, hhash⟩, hs⟩
  have hurl : urlParse (searchURL location) = .ok (searchRequest location).URL := by
    simp only [urlParse, hcut, parse_searchURL h]
    rfl
  have hmethod : (if str "GET" = [] then str "GET" else str "GET") = str "GET" := by rfl
  have htoken : (str "GET").all isTokenByte = true := by rfl
  simp only [requestFor, NewRequest, hmethod, htoken, hurl]
  rfl

/-! ## The query of the request -/

theorem parseQueryLoop_append (rest : Bytes) :
    ∀ (xs : Bytes) (m : Values) (cur : Bytes), 0x26 ∉ xs →
      parseQueryLoop m cur (xs ++ rest) = parseQueryLoop m (cur ++ xs) rest := by
  intro xs
  induction xs with
  | nil => intro m cur _; simp
  | cons c cs ih =>
    intro m cur h
    have hc : c ≠ 0x26 := fun hc => h (hc ▸ List.mem_cons_self _ _)
    have hcs : 0x26 ∉ cs := fun hm => h (List.mem_cons_of_mem _ hm)
    simp [parseQueryLoop, hc, ih _ _ hcs]

theorem parseQueryLoop_sep (m : Values) (cur rest : Bytes) :
    parseQueryLoop m cur (0x26 :: rest) = parseQueryLoop (parseQueryPair m cur) [] rest := by
  simp [parseQueryLoop]

theorem parseQueryLoop_nil (m : Values) (cur : Bytes) :
    parseQueryLoop m cur [] = parseQueryPair m cur := by
  simp [parseQueryLoop]

theorem parseQueryPair_eq (m : Values) (pair key value k v : Bytes) (found : Bool)
    (hsemi : pair.contains 0x3B = false) (hne : pair ≠ [])
    (hcut : cut 0x3D pair = (key, value, found)) (hk : QueryUnescape key = some k)
    (hv : QueryUnescape value = some v) :
    parseQueryPair m pair = Values.add m k v := by
  unfold parseQueryPair
  simp only [hsemi, Bool.false_eq_true, if_false, hne, hcut, hk, hv]

theorem parseQueryLoop_fixed (m : Values) :
    parseQueryLoop m [] (str "format=json&addressdetails=1")
      = Values.add (Values.add m (str "format") (str "json")) (str "addressdetails") (str "1") := by
  have h1 : str "format=json&addressdetails=1"
      = str "format=json" ++ 0x26 :: (str "addressdetails=1" ++ []) := by rfl
  have h2 : (0x26 : Nat) ∉ str "format=json" := by decide
  have h3 : (0x26 : Nat) ∉ str "addressdetails=1" := by decide
  have h4 : ∀ m1 : Values, parseQueryPair m1 (str "format=json")
      = Values.add m1 (str "format") (str "json") := fun m1 =>
    parseQueryPair_eq m1 _ (str "format") (str "json") _ _ true (by rfl) (by decide) (by rfl)
      (by rfl) (by rfl)
  have h5 : ∀ m1 : Values, parseQueryPair m1 (str "addressdetails=1")
      = Values.add m1 (str "addressdetails") (str "1") := fun m1 =>
    parseQueryPair_eq m1 _ (str "addressdetails") (str "1") _ _ true (by rfl) (by decide) (by rfl)
      (by rfl) (by rfl)
  rw [h1, parseQueryLoop_append _ _ _ _ h2, parseQueryLoop_sep, parseQueryLoop_append _ _ _ _ h3,
    parseQueryLoop_nil, List.nil_append, List.nil_append, h4, h5]

/-- The query of `searchRequest`, for a location without `&`: the pair that starts with
`q=` is read first, then `format=json` and `addressdetails=1` are added. -/
theorem query_searchRequest {location : Bytes} (h : 0x26 ∉ location) :
    (searchRequest location).URL.Query =
      Values.add (Values.add (parseQueryPair [] (str "q=" ++ location)) (str "format") (str "json"))
        (str "addressdetails") (str "1") := by
  have hs : str "&format=json&addressdetails=1" = 0x26 :: str "format=json&addressdetails=1" := by
    rfl
  have hq : 0x26 ∉ str "q=" ++ location := by
    have : 0x26 ∉ str "q=" := by decide
    simp only [List.mem_append, not_or]
    exact ⟨this, h⟩
  simp only [URL.Query, searchRequest, hs]
  rw [parseQueryLoop_append _ _ _ _ hq, parseQueryLoop_sep, List.nil_append, parseQueryLoop_fixed]

theorem cut_q (location : Bytes) : cut 0x3D (str "q=" ++ location) = (str "q", location, true) := by
  rfl

/-- The pair that starts with `q=` adds at most the key `q`. -/
theorem parseQueryPair_q (location : Bytes) :
    parseQueryPair [] (str "q=" ++ location) = []
      ∨ ∃ v, parseQueryPair [] (str "q=" ++ location) = [(str "q", [v])] := by
  unfold parseQueryPair
  rw [cut_q]
  split
  · exact Or.inl rfl
  · split
    · exact Or.inl rfl
    · cases hv : QueryUnescape location with
      | none => left; simp [hv]
      | some v =>
        right
        refine ⟨v, ?_⟩
        have hk : QueryUnescape (str "q") = some (str "q") := by rfl
        simp only [hk, hv]
        rfl

theorem validEscapes_of_no_percent : ∀ l : Bytes, 0x25 ∉ l → validEscapes l = true := by
  intro l
  induction l with
  | nil => intro _; rfl
  | cons c cs ih =>
    intro h
    have hc : c ≠ 0x25 := fun hc => h (hc ▸ List.mem_cons_self _ _)
    have hcs : 0x25 ∉ cs := fun hm => h (List.mem_cons_of_mem _ hm)
    have hstep : validEscapes (c :: cs) = validEscapes cs := by
      rw [validEscapes.eq_def]
      split <;> simp_all
    rw [hstep]
    exact ih hcs

theorem unescapeBytes_of_plain : ∀ l : Bytes, 0x25 ∉ l → 0x2B ∉ l → unescapeBytes true l = l := by
  intro l
  induction l with
  | nil => intro _ _; rfl
  | cons c cs ih =>
    intro h h'
    have hc : c ≠ 0x25 := fun hc => h (hc ▸ List.mem_cons_self _ _)
    have hcs : 0x25 ∉ cs := fun hm => h (List.mem_cons_of_mem _ hm)
    have hc' : c ≠ 0x2B := fun hc => h' (hc ▸ List.mem_cons_self _ _)
    have hcs' : 0x2B ∉ cs := fun hm => h' (List.mem_cons_of_mem _ hm)
    have hstep : unescapeBytes true (c :: cs) = c :: unescapeBytes true cs := by
      rw [unescapeBytes.eq_def]
      split <;> simp_all
    rw [hstep, ih hcs hcs']

theorem requestFor_stockholm :
    requestFor (str "Stockholm") =
      some { Method := str "GET",
             URL := { Scheme := str "https", Opaque := [], Host := str "nominatim.openstreetmap.org",
                      Path := str "/search",
                      RawQuery := str "q=Stockholm&format=json&addressdetails=1", Fragment := [] },
             Host := str "nominatim.openstreetmap.org", basicAuth := none } := by
  rfl

/-- The client `respondWith` answers the request for `Stockholm`. -/
theorem do_respondWith {status : Int} {body : Bytes} :
    (respondWith status body).Do (requestFor (str "Stockholm"))
      = .ret (some { StatusCode := status, Body := (body, none) }, none) := by
  rw [requestFor_stockholm]
  rfl

set_option maxRecDepth 1000000 in
set_option exponentiation.threshold 2048 in
theorem unmarshal_stockholmBody :
    Unmarshal stockholmBody =
      .ok [{ Lat := str "59.3251172", Long := [], Class := str "place", Type_ := str "city",
             Importance := str "0.840175301943447",
             Address := { City := str "Stockholm", Municipality := str "Stockholms kommun",
                          State := str "Stockholms län", Region := str "Svealand",
                          Postcode := str "111 29", Country := str "Sverige",
                          CountryCode := str "se" } }] := by
  rfl

theorem unmarshal_emptyCodeBody :
    Unmarshal emptyCodeBody =
      .ok [{ OSMItem.zero with Address := { OSMAddress.zero with Country := str "Sverige" } },
           { OSMItem.zero with Address := { OSMAddress.zero with CountryCode := str "se" } }] := by
  rfl

theorem unmarshal_absentCodeBody :
    Unmarshal absentCodeBody =
      .ok [{ OSMItem.zero with
               Lat := str "59.3",
               Address := { OSMAddress.zero with Country := str "Sverige" } }] := by
  rfl

/-- C1. When the client's `Do` returns a response whose status code is not 200 and whose
body is read to the end, `Location2CountryCode` returns the empty string and
`ErrWrongStatusCode`, whatever the location and whatever the body (the body plays no part
in the result). -/
theorem wrong_status_code (c : Client) (location : Bytes) (resp : Response) (body : Bytes)
    (hdo : c.Do (requestFor location) = .ret (some resp, none))
    (hbody : ReadAll resp.Body = (body, none))
    (hstatus : resp.StatusCode ≠ 200) :
    (Location2CountryCode c location).out = .ret ([], some ErrWrongStatusCode) := by
  have hrun := run_of_response c location resp body hdo hbody
  simp only [Location2CountryCode, hrun]
  simp [hstatus]

theorem wrong_status_code_witness :
    (Location2CountryCode (respondWith 404 matchBody) (str "Stockholm")).out
        = .ret ([], some ErrWrongStatusCode)
      ∧ (Location2CountryCode (respondWith 500 (str "not json")) (str "Stockholm")).out
        = .ret ([], some ErrWrongStatusCode) :=
  ⟨wrong_status_code (respondWith 404 matchBody) (str "Stockholm") _ matchBody
      do_respondWith rfl (by decide),
   wrong_status_code (respondWith 500 (str "not json")) (str "Stockholm") _ (str "not json")
      do_respondWith rfl (by decide)⟩

/-- C7. When the client's `Do` returns an error (with or without a response), or the
reading of the response body ends in an error, `Location2CountryCode` returns the empty
string and that same error, after exactly one call of `Do`. -/
theorem executor_error_returned (c : Client) (location : Bytes) (e : GoError)
    (hfail : (∃ r, c.Do (requestFor location) = .ret (r, some e))
      ∨ (∃ resp body, c.Do (requestFor location) = .ret (some resp, none)
          ∧ ReadAll resp.Body = (body, some e))) :
    (Location2CountryCode c location).out = .ret ([], some e)
      ∧ (Location2CountryCode c location).calls = [requestFor location] := by
  rcases hfail with ⟨r, hdo⟩ | ⟨resp, body, hdo, hbody⟩
  · simp [Location2CountryCode, run_of_do_error c location r e hdo]
  · simp [Location2CountryCode, run_of_read_error c location resp body e hdo hbody]

theorem executor_error_returned_witness :
    (Location2CountryCode (failWith (.other 7)) (str "Stockholm")).out = .ret ([], some (.other 7))
      ∧ (Location2CountryCode (failWith (.other 7)) (str "Stockholm")).calls
        = [requestFor (str "Stockholm")] :=
  executor_error_returned (failWith (.other 7)) (str "Stockholm") (.other 7)
    (Or.inl ⟨none, by rw [requestFor_stockholm]; rfl⟩)

/-- C3. When the client's `Do` returns a response with status 200 whose body is read to
the end: if the body decodes to a non-empty sequence, `Location2CountryCode` returns a nil
error and the `CountryCode` of the first element's address, whatever the later elements;
for the example Stockholm record it returns `se`; and when the country code of the first
element is empty or absent it returns the empty string with a nil error. -/
theorem first_country_code (c : Client) (location : Bytes) (resp : Response) (body : Bytes)
    (hdo : c.Do (requestFor location) = .ret (some resp, none))
    (hbody : ReadAll resp.Body = (body, none))
    (hstatus : resp.StatusCode = 200) :
    (∀ item rest, Unmarshal body = .ok (item :: rest) →
        (Location2CountryCode c location).out = .ret (item.Address.CountryCode, none))
      ∧ (body = stockholmBody → (Location2CountryCode c location).out = .ret (str "se", none))
      ∧ (body = emptyCodeBody → (Location2CountryCode c location).out = .ret ([], none))
      ∧ (body = absentCodeBody → (Location2CountryCode c location).out = .ret ([], none)) := by
  have key : ∀ item rest, Unmarshal body = .ok (item :: rest) →
      (Location2CountryCode c location).out = .ret (item.Address.CountryCode, none) := by
    intro item rest h
    simp [Location2CountryCode, run_of_response c location resp body hdo hbody, hstatus, h]
  refine ⟨key, ?_, ?_, ?_⟩
  · intro hb
    exact key _ _ (hb ▸ unmarshal_stockholmBody)
  · intro hb
    exact key _ _ (hb ▸ unmarshal_emptyCodeBody)
  · intro hb
    exact key _ _ (hb ▸ unmarshal_absentCodeBody)

theorem first_country_code_witness :
    (Location2CountryCode (respondWith 200 stockholmBody) (str "Stockholm")).out
      = .ret (str "se", none) :=
  (first_country_code (respondWith 200 stockholmBody) (str "Stockholm") _ stockholmBody
    do_respondWith rfl rfl).2.1 rfl

/-- C5. When the client's `Do` returns a response with status 200 whose body, read to the
end, is not valid JSON (`checkValid` reports an error, as it does on `not json`),
`Location2CountryCode` returns the empty string and that error of the decoder, a
`SyntaxError`, which is neither `ErrNoMatch` nor `ErrWrongStatusCode`. -/
theorem invalid_json_error (c : Client) (location : Bytes) (resp : Response) (body : Bytes)
    (e : GoError) (hdo : c.Do (requestFor location) = .ret (some resp, none))
    (hbody : ReadAll resp.Body = (body, none))
    (hstatus : resp.StatusCode = 200) (hinvalid : checkValid body = .error e) :
    (Location2CountryCode c location).out = .ret ([], some e)
      ∧ (∃ offset, e = .syntaxError offset) ∧ e ≠ ErrNoMatch ∧ e ≠ ErrWrongStatusCode := by
  obtain ⟨n, hn⟩ := checkValid_error hinvalid
  refine ⟨?_, ⟨n, hn⟩, ?_, ?_⟩
  · simp [Location2CountryCode, run_of_response c location resp body hdo hbody, hstatus,
      Unmarshal, hinvalid]
  · rw [hn]; simp [ErrNoMatch]
  · rw [hn]; simp [ErrWrongStatusCode]

theorem invalid_json_error_witness :
    (Location2CountryCode (respondWith 200 (str "not json")) (str "Stockholm")).out
      = .ret ([], some (.syntaxError 2)) :=
  (invalid_json_error (respondWith 200 (str "not json")) (str "Stockholm") _ (str "not json")
    (.syntaxError 2) do_respondWith rfl rfl (by rfl)).1

/-- C10. For a location with a control character (here a line feed), `http.NewRequest`
returns a nil request, `httpGet` passes that nil request to `Do`, and
`Location2CountryCode` ends in a nil pointer dereference instead of returning, whatever
the client. -/
theorem nil_request_panics (c : Client) :
    requestFor [0x0A] = none
      ∧ Location2CountryCode c [0x0A] = { calls := [none], out := .panic .nilDereference } := by
  have h : requestFor [0x0A] = none := by rfl
  unfold requestFor at h
  refine ⟨rfl, ?_⟩
  simp [Location2CountryCode, httpGet, h, Client.Do]

/-- C9. The result object with `"lat": "59.3251172"` and `"lon": "18.0710935"` decodes to
an `OSMItem` whose `Lat` is the latitude but whose `Long` is empty: the key `lon` does not
select the field tagged `long`. -/
theorem lon_key_not_decoded :
    Unmarshal coordinatesBody = .ok [{ OSMItem.zero with Lat := str "59.3251172", Long := [] }]
      ∧ findField ItemField.all ItemField.tag (str "lon") = none
      ∧ findField ItemField.all ItemField.tag (str "long") = some .Long := by
  refine ⟨by rfl, by rfl, by rfl⟩

/-- The result of `Location2CountryCode` once `Do` has returned a response with status
200 whose body is read to the end and is valid JSON. -/
theorem out_of_valid_body (c : Client) (location : Bytes) (resp : Response) (body : Bytes)
    (v : JSON) (hdo : c.Do (requestFor location) = .ret (some resp, none))
    (hbody : ReadAll resp.Body = (body, none))
    (hstatus : resp.StatusCode = 200) (hvalid : checkValid body = .ok v) :
    (Location2CountryCode c location).out =
      match decodeResponse v with
      | .error e => .ret ([], some e)
      | .ok data =>
        if data.length < 1 then .ret ([], some ErrNoMatch)
        else .ret ((data.headD OSMItem.zero).Address.CountryCode, none) := by
  simp only [Location2CountryCode, run_of_response c location resp body hdo hbody,
    hstatus, Unmarshal, hvalid]
  cases decodeResponse v with
  | error e => simp
  | ok data => by_cases h : data.length < 1 <;> simp [h]

/-- C4 (counterexample). With status 200 and the body `null`, which is valid JSON and not
an array, `Location2CountryCode` returns `ErrNoMatch`. -/
theorem no_match_on_null :
    (Location2CountryCode (respondWith 200 (str "null")) (str "Stockholm")).out
        = .ret ([], some ErrNoMatch)
      ∧ checkValid (str "null") = .ok .null
      ∧ checkValid (str "null") ≠ .ok (.array []) := by
  have h : checkValid (str "null") = .ok .null := by rfl
  refine ⟨by rfl, h, ?_⟩
  rw [h]
  intro hne
  cases hne

/-- C4 (amended). When the client's `Do` returns a response whose body is read to the
end, `Location2CountryCode` returns the empty string with `ErrNoMatch` exactly when the
status is 200 and the body is valid JSON whose value is the empty array or `null`, the two
values that decode to a sequence of zero elements. -/
theorem no_match_iff (c : Client) (location : Bytes) (resp : Response) (body : Bytes)
    (hdo : c.Do (requestFor location) = .ret (some resp, none))
    (hbody : ReadAll resp.Body = (body, none)) :
    (Location2CountryCode c location).out = .ret ([], some ErrNoMatch)
      ↔ resp.StatusCode = 200
        ∧ (checkValid body = .ok (.array []) ∨ checkValid body = .ok .null) := by
  constructor
  · intro h
    by_cases hstatus : resp.StatusCode = 200
    · refine ⟨hstatus, ?_⟩
      cases hv : checkValid body with
      | error e =>
        obtain ⟨n, hn⟩ := checkValid_error hv
        simp [Location2CountryCode, run_of_response c location resp body hdo hbody,
          hstatus, Unmarshal, hv, hn, ErrNoMatch] at h
      | ok v =>
        rw [out_of_valid_body c location resp body v hdo hbody hstatus hv] at h
        cases hd : decodeResponse v with
        | error e =>
          have he := decodeResponse_error hd
          simp only [hd] at h
          cases e <;> simp [GoError.isUnmarshalTypeError, ErrNoMatch] at he h
        | ok data =>
          simp only [hd] at h
          cases data with
          | nil =>
            rcases decodeResponse_eq_nil.mp hd with h1 | h1
            · exact Or.inl (by rw [h1])
            · exact Or.inr (by rw [h1])
          | cons item rest => simp at h
    · simp [Location2CountryCode, run_of_response c location resp body hdo hbody,
        hstatus, ErrWrongStatusCode, ErrNoMatch] at h
  · rintro ⟨hstatus, hv | hv⟩
    · rw [out_of_valid_body c location resp body _ hdo hbody hstatus hv]
      rfl
    · rw [out_of_valid_body c location resp body _ hdo hbody hstatus hv]
      rfl

theorem no_match_iff_witness :
    (Location2CountryCode (respondWith 200 (str "[]")) (str "Stockholm")).out
      = .ret ([], some ErrNoMatch) :=
  (no_match_iff (respondWith 200 (str "[]")) (str "Stockholm") _ (str "[]")
    do_respondWith rfl).mpr ⟨rfl, Or.inl (by rfl)⟩

/-- C6 (counterexample). With status 200, the body `[null]`, an array whose element is
not a result object, yields the empty string with a nil error, and the body `null`, which
is not an array, yields `ErrNoMatch`: neither is a decode error. -/
theorem null_is_not_a_decode_error :
    (Location2CountryCode (respondWith 200 (str "[null]")) (str "Stockholm")).out
        = .ret ([], none)
      ∧ checkValid (str "[null]") = .ok (.array [.null])
      ∧ (Location2CountryCode (respondWith 200 (str "null")) (str "Stockholm")).out
        = .ret ([], some ErrNoMatch) := by
  refine ⟨by rfl, by rfl, by rfl⟩

/-- C6 (amended). When the client's `Do` returns a response with status 200 whose body,
read to the end, is valid JSON whose value is an object, a string, a number or a boolean,
or is an array with an element that is a string, a number, a boolean or an array,
`Location2CountryCode` returns the empty string and an `UnmarshalTypeError`: never a nil
error and never `ErrNoMatch`. -/
theorem wrong_shape_is_decode_error (c : Client) (location : Bytes) (resp : Response)
    (body : Bytes) (v : JSON) (hdo : c.Do (requestFor location) = .ret (some resp, none))
    (hbody : ReadAll resp.Body = (body, none))
    (hstatus : resp.StatusCode = 200) (hvalid : checkValid body = .ok v)
    (hshape : v.isNonArrayValue = true
      ∨ ∃ elems, v = .array elems ∧ ∃ x ∈ elems, x.isNonObjectValue = true) :
    ∃ e, (Location2CountryCode c location).out = .ret ([], some e)
      ∧ e.isUnmarshalTypeError = true ∧ e ≠ ErrNoMatch := by
  have herr : ∃ e, decodeResponse v = .error e := by
    rcases hshape with h | ⟨elems, hv, hx⟩
    · exact ⟨_, decodeResponse_of_isNonArrayValue h⟩
    · subst hv
      exact decodeItems_of_isNonObjectValue elems hx
  obtain ⟨e, he⟩ := herr
  have hty := decodeResponse_error he
  refine ⟨e, ?_, hty, ?_⟩
  · rw [out_of_valid_body c location resp body v hdo hbody hstatus hvalid, he]
  · intro h
    rw [h] at hty
    simp [ErrNoMatch, GoError.isUnmarshalTypeError] at hty

theorem wrong_shape_is_decode_error_witness :
    ∃ e, (Location2CountryCode (respondWith 200 (str "[1]")) (str "Stockholm")).out
        = .ret ([], some e)
      ∧ e.isUnmarshalTypeError = true ∧ e ≠ ErrNoMatch :=
  wrong_shape_is_decode_error (respondWith 200 (str "[1]")) (str "Stockholm") _ (str "[1]")
    (.array [.number (str "1")]) do_respondWith rfl rfl (by rfl)
    (Or.inr ⟨_, rfl, _, List.mem_singleton.mpr rfl, rfl⟩)

/-- `Location2CountryCode` calls `Do` exactly once, with the request that `httpGet` built
(nil when `http.NewRequest` failed), whatever the client answers. -/
theorem calls_eq (c : Client) (location : Bytes) :
    (Location2CountryCode c location).calls = [requestFor location] := by
  have h : (httpGet c (searchURL location) []).calls = [requestFor location] := by
    simp only [httpGet, requestFor]
    simp only [List.length_nil, gt_iff_lt, lt_self_iff_false, if_false]
    repeat' split
    all_goals rfl
  simp only [Location2CountryCode]
  repeat' split
  all_goals exact h

theorem parseQueryPair_q_of_plain {location : Bytes}
    (h : ∀ b ∈ location, readsBackAsItself b = true) :
    parseQueryPair [] (str "q=" ++ location) = [(str "q", [location])] := by
  have hb : ∀ b ∈ location, b ≠ 0x3B ∧ b ≠ 0x2B ∧ b ≠ 0x25 := by
    intro b hb
    have := h b hb
    simp only [readsBackAsItself, Bool.and_eq_true, decide_eq_true_eq] at this
    exact this.2
  have h25 : 0x25 ∉ location := fun hm => (hb _ hm).2.2 rfl
  have h2B : 0x2B ∉ location := fun hm => (hb _ hm).2.1 rfl
  have h3B : 0x3B ∉ location := fun hm => (hb _ hm).1 rfl
  have hsemi : (str "q=" ++ location).contains 0x3B = false := by
    have hq : (0x3B : Nat) ∉ str "q=" := by decide
    simp only [List.contains_eq_any_beq, List.any_eq_false, List.mem_append, beq_iff_eq]
    rintro x (hx | hx) heq
    · exact hq (heq ▸ hx)
    · exact h3B (heq ▸ hx)
  have hne : str "q=" ++ location ≠ [] := by
    have hq : str "q=" = 0x71 :: [0x3D] := by rfl
    simp [hq]
  have hv : QueryUnescape location = some location := by
    simp only [QueryUnescape, validEscapes_of_no_percent _ h25, if_true,
      unescapeBytes_of_plain _ h25 h2B]
  rw [parseQueryPair_eq [] _ (str "q") location (str "q") location true hsemi hne (cut_q location)
    (by rfl) hv]
  rfl

/-- C2 (counterexample). For the location `a&b` the query of the request carries `a` under
the key `q`, not `a&b`; for `a+b` it carries `a b`; for `100%` it carries no `q` at all;
and for `a#b` it carries `a` and the fixed parameters are lost. -/
theorem q_not_read_back :
    (Location2CountryCode (respondWith 200 (str "[]")) (str "a&b")).calls
        = [requestFor (str "a&b")]
      ∧ (requestFor (str "a&b")).map (fun req => req.URL.Query.get (str "q")) = some [str "a"]
      ∧ (requestFor (str "a&b")).map (fun req => req.URL.Query.get (str "q"))
          ≠ some [str "a&b"]
      ∧ (requestFor (str "a+b")).map (fun req => req.URL.Query.get (str "q")) = some [str "a b"]
      ∧ (requestFor (str "100%")).map (fun req => req.URL.Query.get (str "q")) = some []
      ∧ (requestFor (str "a#b")).map (fun req => req.URL.Query) = some [(str "q", [str "a"])] := by
  have h : (requestFor (str "a&b")).map (fun req => req.URL.Query.get (str "q"))
      = some [str "a"] := by rfl
  refine ⟨by rfl, h, ?_, by rfl, by rfl, by rfl⟩
  rw [h]
  decide

/-- C2 (amended). The location is written into the URL as it is, without percent
encoding. For a location that has no control byte and none of `#`, `&`, `;`, `+` and `%`
(spaces, commas, `=` and bytes outside ASCII are allowed), the request that
`Location2CountryCode` passes to `Do` carries the location after `q=` in its raw query,
and parsing its query yields exactly the location under the key `q`. -/
theorem q_reads_back (c : Client) (location : Bytes)
    (h : ∀ b ∈ location, readsBackAsItself b = true) :
    ∃ req, (Location2CountryCode c location).calls = [some req]
      ∧ req.URL.RawQuery = str "q=" ++ location ++ str "&format=json&addressdetails=1"
      ∧ req.URL.Query.get (str "q") = [location] := by
  have hk : ∀ b ∈ location, keepsQueryShape b = true := by
    intro b hb
    have := h b hb
    simp only [readsBackAsItself, Bool.and_eq_true] at this
    exact this.1
  obtain ⟨_, hamp, _⟩ := keepsQueryShape_spec hk
  refine ⟨searchRequest location, ?_, rfl, ?_⟩
  · rw [calls_eq, requestFor_of_keepsQueryShape hk]
  · rw [query_searchRequest hamp, parseQueryPair_q_of_plain h]
    rfl

theorem q_reads_back_witness :
    ∃ req, (Location2CountryCode (respondWith 200 stockholmBody)
          (str "Stockholm, Stockholms län = Sverige")).calls = [some req]
      ∧ req.URL.RawQuery = str "q=" ++ str "Stockholm, Stockholms län = Sverige"
          ++ str "&format=json&addressdetails=1"
      ∧ req.URL.Query.get (str "q") = [str "Stockholm, Stockholms län = Sverige"] :=
  q_reads_back (respondWith 200 stockholmBody) (str "Stockholm, Stockholms län = Sverige")
    (by decide)

/-- C8 (counterexample). For the location `a&format=xml` the query of the request carries
`format` twice, with the values `xml` and `json`; for `a#b` it carries neither `format`
nor `addressdetails`. -/
theorem fixed_parameters_not_unique :
    (Location2CountryCode (respondWith 200 (str "[]")) (str "a&format=xml")).calls
        = [requestFor (str "a&format=xml")]
      ∧ (requestFor (str "a&format=xml")).map (fun req => req.URL.Query.get (str "format"))
        = some [str "xml", str "json"]
      ∧ (requestFor (str "a&format=xml")).map (fun req => req.URL.Query.get (str "format"))
        ≠ some [str "json"]
      ∧ (requestFor (str "a#b")).map (fun req =>
          (req.URL.Query.get (str "format"), req.URL.Query.get (str "addressdetails")))
        = some ([], []) := by
  have h : (requestFor (str "a&format=xml")).map (fun req => req.URL.Query.get (str "format"))
      = some [str "xml", str "json"] := by rfl
  refine ⟨by rfl, h, ?_, by rfl⟩
  rw [h]
  decide

/-- C8 (amended). For a location that has no control byte and neither `#` nor `&`,
`Location2CountryCode` calls `Do` exactly once, with a request whose method is `GET`, that
has no basic-auth credentials, whose URL is on `https://nominatim.openstreetmap.org/search`
with the raw query `q=` + location + `&format=json&addressdetails=1`, and whose parsed
query carries `format` exactly once with the value `json` and `addressdetails` exactly once
with the value `1`. -/
theorem search_request_shape (c : Client) (location : Bytes)
    (h : ∀ b ∈ location, keepsQueryShape b = true) :
    ∃ req, (Location2CountryCode c location).calls = [some req]
      ∧ req.Method = str "GET" ∧ req.basicAuth = none
      ∧ req.URL.Scheme = str "https" ∧ req.URL.Host = str "nominatim.openstreetmap.org"
      ∧ req.URL.Path = str "/search"
      ∧ req.URL.RawQuery = str "q=" ++ location ++ str "&format=json&addressdetails=1"
      ∧ req.URL.Query.get (str "format") = [str "json"]
      ∧ req.URL.Query.get (str "addressdetails") = [str "1"] := by
  obtain ⟨_, hamp, _⟩ := keepsQueryShape_spec h
  refine ⟨searchRequest location, ?_, rfl, rfl, rfl, rfl, rfl, rfl, ?_, ?_⟩
  · rw [calls_eq, requestFor_of_keepsQueryShape h]
  · rw [query_searchRequest hamp]
    rcases parseQueryPair_q location with h0 | ⟨v, h0⟩ <;> rw [h0] <;> rfl
  · rw [query_searchRequest hamp]
    rcases parseQueryPair_q location with h0 | ⟨v, h0⟩ <;> rw [h0] <;> rfl

theorem search_request_shape_witness :
    ∃ req, (Location2CountryCode (respondWith 200 stockholmBody) (str "100% Stockholm;+")).calls
        = [some req]
      ∧ req.Method = str "GET" ∧ req.basicAuth = none
      ∧ req.URL.Scheme = str "https" ∧ req.URL.Host = str "nominatim.openstreetmap.org"
      ∧ req.URL.Path = str "/search"
      ∧ req.URL.RawQuery = str "q=" ++ str "100% Stockholm;+" ++ str "&format=json&addressdetails=1"
      ∧ req.URL.Query.get (str "format") = [str "json"]
      ∧ req.URL.Query.get (str "addressdetails") = [str "1"] :=
  search_request_shape (respondWith 200 stockholmBody) (str "100% Stockholm;+") (by decide)

end Osm
